import Mathlib

set_option maxRecDepth 8000

/-!
Shallow embedding of the sftp-ws server session engine (`lib/sftp-server.ts`):
the status taxonomy (`SftpException`), the handle table
(`createHandleInfo` / `readHandleInfo` / `deleteHandleInfo`), the per-handle
task queue (`_process` / `processNext`), session teardown (`end`), and the
request handlers for `OPEN`, `READ` and `READDIR`.

The wire codec (`sftp-packet.ts`) and the enumerations (`sftp-enums.ts`) are
not part of the analysed sources; where their behaviour matters it is modelled
from the specification (fixed 34,000-byte writer capacity, 9-byte packet
header of length/type/id, `check(n)` asserting remaining capacity, status
code constants).  Backend filesystem calls are modelled by oracles: lists of
completion results consumed in order.
-/

/-- Modelled from the spec: SFTP status codes used by the engine
(`sftp-enums.ts` is not among the analysed sources). -/
inductive SftpStatusCode where
  | OK
  | EOF
  | NO_SUCH_FILE
  | PERMISSION_DENIED
  | FAILURE
  | BAD_MESSAGE
  | OP_UNSUPPORTED
deriving DecidableEq, Repr

/-- Modelled from the spec: the request packet types dispatched by
`processRequest` (`sftp-enums.ts` is not among the analysed sources).
`UNKNOWN` stands for any tag with no `case` in the dispatcher. -/
inductive SftpPacketType where
  | INIT
  | OPEN
  | CLOSE
  | READ
  | WRITE
  | LSTAT
  | FSTAT
  | SETSTAT
  | FSETSTAT
  | OPENDIR
  | READDIR
  | REMOVE
  | MKDIR
  | RMDIR
  | REALPATH
  | STAT
  | RENAME
  | READLINK
  | SYMLINK
  | HARDLINK
  | UNKNOWN
deriving DecidableEq, Repr

/-- A backend (Node-style) error: numeric `errno`, the `isPublic` marker and
the original message, as consumed by the `SftpException` constructor. -/
structure NodeError where
  errno : Int
  isPublic : Bool
  message : String
deriving DecidableEq, Repr

/-- Result of mapping a backend error: an SFTP status code and a message
(the `code` and `message` fields set by the `SftpException` constructor). -/
structure SftpException where
  code : SftpStatusCode
  message : String
deriving DecidableEq, Repr

/-- The JavaScript coercion `errno | 0` (ToInt32): reduce modulo 2^32 and
map the result into the signed 32-bit range. -/
def toInt32 (e : Int) : Int :=
  if e % 4294967296 < 2147483648 then e % 4294967296
  else e % 4294967296 - 4294967296

/-- The `switch (errno)` of the `SftpException` constructor, translated
case by case; its scrutinee is the already-wrapped errno
(`var errno = err.errno | 0`).  The default branch keeps the original
message only for errors marked `isPublic`. -/
def mkSftpExceptionCore (e : Int) (isPublic : Bool) (emsg : String) :
    SftpException :=
  if e = 1 then ⟨.EOF, "End of file"⟩
  else if e = 3 then ⟨.PERMISSION_DENIED, "Permission denied"⟩
  else if e = 4 then ⟨.FAILURE, "Try again"⟩
  else if e = 9 then ⟨.FAILURE, "Bad file number"⟩
  else if e = 10 then ⟨.FAILURE, "Device or resource busy"⟩
  else if e = 18 then ⟨.FAILURE, "Invalid argument"⟩
  else if e = 20 then ⟨.FAILURE, "Too many open files"⟩
  else if e = 24 then ⟨.FAILURE, "File table overflow"⟩
  else if e = 25 then ⟨.FAILURE, "No buffer space available"⟩
  else if e = 26 then ⟨.FAILURE, "Out of memory"⟩
  else if e = 27 then ⟨.FAILURE, "Not a directory"⟩
  else if e = 28 then ⟨.FAILURE, "Is a directory"⟩
  else if e = -2 then ⟨.NO_SUCH_FILE, "No such file or directory"⟩
  else if e = -4058 then ⟨.NO_SUCH_FILE, "No such file or directory"⟩
  else if e = 34 then ⟨.NO_SUCH_FILE, "No such file or directory"⟩
  else if e = 35 then ⟨.OP_UNSUPPORTED, "Function not implemented"⟩
  else if e = 47 then ⟨.FAILURE, "File exists"⟩
  else if e = 49 then ⟨.FAILURE, "File name too long"⟩
  else if e = 50 then ⟨.FAILURE, "Operation not permitted"⟩
  else if e = 51 then ⟨.FAILURE, "Too many symbolic links encountered"⟩
  else if e = 52 then ⟨.FAILURE, "Cross-device link"⟩
  else if e = 53 then ⟨.FAILURE, "Directory not empty"⟩
  else if e = 54 then ⟨.FAILURE, "No space left on device"⟩
  else if e = 55 then ⟨.FAILURE, "I/O error"⟩
  else if e = 56 then ⟨.FAILURE, "Read-only file system"⟩
  else if e = 57 then ⟨.NO_SUCH_FILE, "No such device"⟩
  else if e = 58 then ⟨.FAILURE, "Illegal seek"⟩
  else if e = 59 then ⟨.FAILURE, "Operation canceled"⟩
  else if isPublic then ⟨.FAILURE, emsg⟩
  else ⟨.FAILURE, "Unknown error (" ++ toString e ++ ")"⟩

/-- The `SftpException` constructor: wrap the errno with `| 0`
(`var errno = err.errno | 0`), then run the switch on the wrapped value. -/
def mkSftpException (err : NodeError) : SftpException :=
  mkSftpExceptionCore (toInt32 err.errno) err.isPublic err.message

/-- The errno values that have an explicit `case` in `SftpException`. -/
def mappedErrnos : List Int :=
  [1, 3, 4, 9, 10, 18, 20, 24, 25, 26, 27, 28, -2, -4058, 34, 35,
   47, 49, 50, 51, 52, 53, 54, 55, 56, 57, 58, 59]

/-- MAX_HANDLE_COUNT of `SftpServerSession`. -/
def MAX_HANDLE_COUNT : Nat := 512

/-- The cursor step `(h % max) + 1` used by `createHandleInfo`. -/
def wrapNext (h : Nat) : Nat := (h % MAX_HANDLE_COUNT) + 1

/-- The sequence of slots probed by `createHandleInfo` when the scan starts
at `h` and may take `n` steps. -/
def probeSeq (h : Nat) : Nat → List Nat
  | 0 => []
  | n + 1 => h :: probeSeq (wrapNext h) n

/-- The scan loop of `createHandleInfo`: starting at slot `h`, probe up to
`n` slots, returning the first one that satisfies `free`. -/
def scanAlloc (free : Nat → Bool) (h : Nat) : Nat → Option Nat
  | 0 => none
  | n + 1 => if free h then some h else scanAlloc free (wrapNext h) n

/-- A directory item, reduced to what the engine observes: an identifying
tag and the number of bytes `writeItem` appends for it (filename string,
longname string and attribute block; the exact codec layout lives in the
packet module, which is modelled from the spec by this single size). -/
structure SftpItem where
  tag : Nat
  wireSize : Nat
deriving DecidableEq, Repr

/-- `SftpHandleInfo`: one slot of the handle table.  `h` is the numeric
index (set to `-1` on deletion — the tombstone), `bh` the backend-native
handle (`none` until the backend open completes), `items` the buffered
directory items of a paginated `READDIR`, `locked` the per-handle lock,
and `tasks` the FIFO of queued continuation tasks (represented by
opaque task identifiers). -/
structure SftpHandleInfo where
  h : Int
  bh : Option Nat
  items : Option (List SftpItem)
  locked : Bool
  tasks : List Nat
deriving DecidableEq, Repr

/-- The `SftpHandleInfo` constructor: fresh slot for index `h`. -/
def newHandleInfo (h : Nat) : SftpHandleInfo :=
  ⟨(h : Int), none, none, false, []⟩

/-- The mutable state of an `SftpServerSession`: whether the filesystem
reference is still held (`typeof this._fs !== 'undefined'`), whether the
channel was closed, the handle table (index 0 unused) and the rolling
allocation cursor `nextHandle`. -/
structure SftpServerSession where
  fsPresent : Bool
  channelClosed : Bool
  handles : List (Option SftpHandleInfo)
  nextHandle : Nat
deriving DecidableEq, Repr

/-- Table lookup `this._handles[h]` (`none` both for an empty slot and for
an out-of-range index, matching `undefined`). -/
def lookupHandle (s : SftpServerSession) (h : Nat) : Option SftpHandleInfo :=
  s.handles.getD h none

/-- Table update `this._handles[h] = v` (or `delete` for `none`). -/
def setHandle (s : SftpServerSession) (h : Nat) (v : Option SftpHandleInfo) :
    SftpServerSession :=
  { s with handles := s.handles.set h v }

/-- `createHandleInfo`: scan at most `MAX_HANDLE_COUNT` slots starting at
the cursor; on success store a fresh record, advance the cursor and return
the new session state with the allocated index; on failure return `none`
(the caller replies FAILURE and nothing is modified). -/
def createHandleInfo (s : SftpServerSession) :
    Option (SftpServerSession × Nat) :=
  match scanAlloc (fun h => (lookupHandle s h).isNone) s.nextHandle
      MAX_HANDLE_COUNT with
  | none => none
  | some h =>
      some ({ setHandle s h (some (newHandleInfo h)) with
                nextHandle := wrapNext h }, h)

/-- `end()`: close the channel; if the filesystem reference is still held,
submit every occupied slot's backend handle to a backend close (the
completion callback discards errors) and drop the reference.  Returns the
new state and the list of backend handles submitted to close. -/
def endSession (s : SftpServerSession) :
    SftpServerSession × List (Option Nat) :=
  if s.fsPresent then
    ({ s with channelClosed := true, fsPresent := false },
     s.handles.filterMap (fun o => o.map SftpHandleInfo.bh))
  else
    ({ s with channelClosed := true }, [])

/-- The handle-bound request types of `_process` (those whose payload is
prefixed by a 4-byte handle). -/
def isHandleBound : SftpPacketType → Bool
  | .CLOSE => true
  | .READ => true
  | .WRITE => true
  | .FSTAT => true
  | .FSETSTAT => true
  | .READDIR => true
  | _ => false

/-- An inbound request as `_process` sees it: the type tag, the declared
packet length, the handle prefix fields (length field and index, read only
for handle-bound types), the decoded open-mode list (`SftpFlags.fromNumber`
of the `OPEN` pflags — the decoder lives in `sftp-misc.ts` and is modelled
from the spec as an opaque already-decoded list), and an opaque identifier
used when the request is queued as a task. -/
structure SftpRequest where
  reqType : SftpPacketType
  len : Nat
  hLenField : Nat
  hIdx : Nat
  modes : List Nat
  taskId : Nat
deriving DecidableEq, Repr

/-- What a single `_process` invocation is observed to do. -/
inductive Outcome where
  | versionReply
  | statusReply (code : SftpStatusCode) (msg : String)
  | backendStarted (t : SftpPacketType)
  | queued
  | dropped
deriving DecidableEq, Repr

/-- Result of one `_process` step: the new session state, the observable
outcome, and the task popped (and started) by `processNext`, if any. -/
structure DStep where
  sess : SftpServerSession
  out : Outcome
  poppedTask : Option Nat
deriving DecidableEq, Repr

/-- `processNext`: pop one queued task and run it; if the queue is empty,
clear `locked`.  Operates on the slot at index `h`. -/
def processNext (s : SftpServerSession) (h : Nat) :
    SftpServerSession × Option Nat :=
  match lookupHandle s h with
  | none => (s, none)
  | some hi =>
      match hi.tasks with
      | [] => (setHandle s h (some { hi with locked := false }), none)
      | t :: ts => (setHandle s h (some { hi with tasks := ts }), some t)

/-- `sendStatus` followed by `send`: emit a STATUS response; if the
response carries a handle info (`attached`), `send` invokes `processNext`
on it. -/
def sendStatusStep (s : SftpServerSession) (attached : Option Nat)
    (code : SftpStatusCode) (msg : String) : DStep :=
  match attached with
  | none => ⟨s, .statusReply code msg, none⟩
  | some h =>
      let p := processNext s h
      ⟨p.1, .statusReply code msg, p.2⟩

/-- `processRequest`, up to the point where a backend call is issued:
the disposed check, the 66,000-byte length check, and the synchronous
failure branches of `OPEN`/`OPENDIR` and of unknown types.  Types whose
handler immediately issues a backend call yield `backendStarted`. -/
def processRequest (s : SftpServerSession) (r : SftpRequest)
    (attached : Option Nat) : DStep :=
  if ¬ s.fsPresent then ⟨s, .dropped, none⟩
  else if r.len > 66000 then
    sendStatusStep s attached .BAD_MESSAGE "Packet too long"
  else
    match r.reqType with
    | .OPEN =>
        if r.modes.length = 0 then
          sendStatusStep s attached .FAILURE "Unsupported flags"
        else
          match createHandleInfo s with
          | none =>
              sendStatusStep s attached .FAILURE "Too many open handles"
          | some (s1, _) => ⟨s1, .backendStarted .OPEN, none⟩
    | .OPENDIR =>
        match createHandleInfo s with
        | none => sendStatusStep s attached .FAILURE "Too many open handles"
        | some (s1, _) => ⟨s1, .backendStarted .OPENDIR, none⟩
    | .UNKNOWN => sendStatusStep s attached .OP_UNSUPPORTED "Not supported"
    | t => ⟨s, .backendStarted t, none⟩

/-- `_process`: INIT is answered immediately with VERSION; handle-bound
types resolve their handle via `readHandleInfo` (a length field other than
4 or an empty table slot yields FAILURE "Invalid handle", sent without an
attached handle info); an unlocked handle is locked and the request handled
at once, a locked one gets the request appended to its task FIFO. -/
def processMessage (s : SftpServerSession) (r : SftpRequest) : DStep :=
  if r.reqType = .INIT then ⟨s, .versionReply, none⟩
  else if isHandleBound r.reqType then
    if r.hLenField ≠ 4 then ⟨s, .statusReply .FAILURE "Invalid handle", none⟩
    else
      match lookupHandle s r.hIdx with
      | none => ⟨s, .statusReply .FAILURE "Invalid handle", none⟩
      | some hi =>
          if hi.locked then
            ⟨setHandle s r.hIdx (some { hi with tasks := hi.tasks ++ [r.taskId] }),
             .queued, none⟩
          else
            processRequest
              (setHandle s r.hIdx (some { hi with locked := true }))
              r (some r.hIdx)
  else processRequest s r none

/-- Backend filesystem operations issued by the `OPEN` fallback loop. -/
inductive FsOp where
  | fsOpen (mode : Nat)
  | fsClose (bh : Nat)
deriving DecidableEq, Repr

/-- Final observable result of the `OPEN` fallback loop. -/
inductive OpenOutcome where
  | statusReply (code : SftpStatusCode) (msg : String)
  | handleReply (bh : Nat)
deriving DecidableEq, Repr

/-- The recursive `openFile` closure of the `OPEN` handler.  `opens` and
`closes` are oracles: the results the backend will deliver to the
successive `fs.open` and `fs.close` calls.  Each iteration shifts one mode
and opens with it; an error replies the mapped status and frees the handle
(second component `true`); success with no modes remaining stores the
backend handle and replies HANDLE; success with modes remaining closes the
just-opened descriptor and retries.  The third component is the list of
backend calls issued.  `none` models a state the code never reaches
(empty mode list — the caller already replied "Unsupported flags" — or an
oracle shorter than the calls actually made). -/
def openFile (opens : List (Except NodeError Nat))
    (closes : List (Option NodeError)) :
    List Nat → Option (OpenOutcome × Bool × List FsOp)
  | [] => none
  | m :: ms =>
      match opens with
      | [] => none
      | o :: os =>
          match o with
          | .error e =>
              some (.statusReply (mkSftpException e).code
                      (mkSftpException e).message, true, [.fsOpen m])
          | .ok bh =>
              match ms with
              | [] => some (.handleReply bh, false, [.fsOpen m])
              | m2 :: ms' =>
                  match closes with
                  | [] => none
                  | c :: cs =>
                      match c with
                      | some e =>
                          some (.statusReply (mkSftpException e).code
                                (mkSftpException e).message, true,
                                [.fsOpen m, .fsClose bh])
                      | none =>
                          (openFile os cs (m2 :: ms')).map
                            (fun x => (x.1, x.2.1,
                              .fsOpen m :: .fsClose bh :: x.2.2))

/-- The length cap of the `READ` handler: `if (count > 0x8000) count = 0x8000`. -/
def capRead (count : Nat) : Nat := if count > 0x8000 then 0x8000 else count

/-- A DATA reply as built by the `READ` handler: the 32-bit length field
written at the reserved position, the payload bytes the backend deposited
in the reserved region (offset 13 = 9-byte header + 4-byte length field),
and the final writer position. -/
structure ReadReply where
  lenField : Nat
  payload : List Nat
  finalPos : Nat
deriving DecidableEq, Repr

/-- Observable result of the `READ` handler. -/
inductive ReadOutcome where
  | dataReply (r : ReadReply)
  | eofReply
  | errReply (code : SftpStatusCode) (msg : String)
  | checkFail
deriving DecidableEq, Repr

/-- The `READ` handler: cap the requested length, `start()` the DATA packet
(writer position 9), reserve `4 + count` bytes (`check` fails iff they do
not fit in the 34,000-byte buffer), and hand the reserved region to the
backend.  The oracle `result` is the backend completion: an error, or the
bytes actually read.  Zero bytes read reply EOF; otherwise the actual
count is written in the reserved length field and the writer advanced
past the region. -/
def readRequest (count : Nat) (result : Except NodeError (List Nat)) :
    ReadOutcome :=
  let c := capRead count
  if 9 + (4 + c) > 34000 then .checkFail
  else
    match result with
    | .error e =>
        .errReply (mkSftpException e).code (mkSftpException e).message
    | .ok data =>
        if data.length = 0 then .eofReply
        else .dataReply ⟨data.length, data, 13 + data.length⟩

/-- The length the `READ` handler passes to `fs.read`. -/
def readBackendLen (count : Nat) : Nat := capRead count

/-- One backend `fs.readdir` completion: a batch of items, the end-of-stream
sentinel `false`, or an error. -/
inductive ReaddirPoll where
  | batch (l : List SftpItem)
  | eos
  | fsErr (e : NodeError)
deriving DecidableEq, Repr

/-- Result of the item-emitting `while` loop of the `READDIR` handler. -/
inductive DrainRes where
  | stop (written : List SftpItem) (count : Nat) (pos : Nat)
      (stash : List SftpItem)
  | through (written : List SftpItem) (count : Nat) (pos : Nat)
  | ovf
deriving DecidableEq, Repr

/-- The `while (list.length > 0)` loop of the `READDIR` handler: shift an
item, write it (`ovf` when it does not fit the 34,000-byte buffer — the
writer's capacity check), bump the count, and stop — stashing the rest —
once the position passes the 0x7000 soft budget. -/
def rdDrain : List SftpItem → Nat → Nat → List SftpItem → DrainRes
  | [], pos, count, acc => .through acc count pos
  | i :: rest, pos, count, acc =>
      if pos + i.wireSize > 34000 then .ovf
      else if pos + i.wireSize > 0x7000 then
        .stop (acc ++ [i]) (count + 1) (pos + i.wireSize) rest
      else rdDrain rest (pos + i.wireSize) (count + 1) (acc ++ [i])

/-- Observable result of the `READDIR` handler.  `nameReply` carries the
items written, the patched 32-bit count and the final value of the
handle's `items` stash; `pending` models an oracle that ended before the
backend answered. -/
inductive ReaddirOutcome where
  | nameReply (written : List SftpItem) (count : Nat)
      (stash : Option (List SftpItem))
  | eofReply
  | errReply (code : SftpStatusCode) (msg : String)
  | ovf
  | pending
deriving DecidableEq, Repr

/-- The polling loop of the `READDIR` handler: consume backend completions
one by one.  An error is mapped and sent; the end-of-stream sentinel
finalizes the packet (`done()`: EOF status when no item was written,
otherwise the NAME packet with the count placeholder patched); a batch is
drained by the `while` loop, stashing the remainder on the handle when the
budget is passed. -/
def rdPoll : List ReaddirPoll → Nat → Nat → List SftpItem →
    Option (List SftpItem) → ReaddirOutcome
  | [], _, _, _, _ => .pending
  | p :: ps, pos, count, acc, stash =>
      match p with
      | .fsErr e =>
          .errReply (mkSftpException e).code (mkSftpException e).message
      | .eos =>
          if count = 0 then .eofReply else .nameReply acc count stash
      | .batch l =>
          match rdDrain l pos count acc with
          | .ovf => .ovf
          | .stop acc' count' _ rest => .nameReply acc' count' (some rest)
          | .through acc' count' pos' => rdPoll ps pos' count' acc' stash

/-- The `READDIR` handler: `start()` the NAME packet and write the 32-bit
count placeholder (position 13 = 9-byte header + 4), then drain the items
left over from the previous call, if any (resetting the stash to `[]`
first), before polling the backend. -/
def readdirRequest (prev : Option (List SftpItem))
    (oracle : List ReaddirPoll) : ReaddirOutcome :=
  match prev with
  | some (p :: ps) =>
      match rdDrain (p :: ps) 13 0 [] with
      | .ovf => .ovf
      | .stop acc count _ rest => .nameReply acc count (some rest)
      | .through acc count pos => rdPoll oracle pos count acc (some [])
  | _ => rdPoll oracle 13 0 [] prev

/-- Decidable bound used for the capacity claim: every item offered by the
stash and the oracle serializes to at most `n` bytes. -/
def smallItems (prev : Option (List SftpItem)) (oracle : List ReaddirPoll)
    (n : Nat) : Bool :=
  (match prev with
   | none => true
   | some l => l.all (fun i => i.wireSize ≤ n)) &&
  oracle.all (fun p =>
    match p with
    | .batch l => l.all (fun i => i.wireSize ≤ n)
    | _ => true)

/-- Events observed by one handle of an active session: a handle-bound
request arrives (`_process` reached the dispatch rule for this handle), or
the response of the currently running request is sent (`send` invoking
`processNext`).  Requests are named by identifiers. -/
inductive QEv where
  | arrive (r : Nat)
  | complete
deriving DecidableEq, Repr

/-- Backend events of one handle: the backend filesystem call for request
`r` begins, or it completes (its response is sent). -/
inductive BEv where
  | callBegin (r : Nat)
  | callEnd (r : Nat)
deriving DecidableEq, Repr

/-- State of one handle under the dispatch rule of `_process`, with ghost
fields recording what happened: `locked` and `tasks` are the fields of
`SftpHandleInfo`; `running` is the request whose backend call is in
flight; `doneL` lists the completed requests in order; `trace` is the
sequence of backend events emitted so far. -/
structure QState where
  locked : Bool
  running : Option Nat
  tasks : List Nat
  doneL : List Nat
  trace : List BEv
deriving DecidableEq, Repr

/-- The state of a freshly allocated handle. -/
def initQState : QState := ⟨false, none, [], [], []⟩

/-- One step of the per-handle discipline.  `arrive`: if the handle is not
locked, lock it and execute at once (the backend call begins); otherwise
append the request to the task FIFO.  `complete` (only legal while a call
is running): the response is sent, then `processNext` pops exactly one
queued task and runs it, or clears the lock if the queue is empty. -/
def qstep (s : QState) (e : QEv) : Option QState :=
  match e with
  | .arrive r =>
      if s.locked then some { s with tasks := s.tasks ++ [r] }
      else some { s with locked := true, running := some r,
                         trace := s.trace ++ [.callBegin r] }
  | .complete =>
      match s.running with
      | none => none
      | some r =>
          match s.tasks with
          | [] => some { s with locked := false, running := none,
                                doneL := s.doneL ++ [r],
                                trace := s.trace ++ [.callEnd r] }
          | t :: ts =>
              some { s with running := some t, tasks := ts,
                            doneL := s.doneL ++ [r],
                            trace := s.trace ++ [.callEnd r, .callBegin t] }

/-- Run a sequence of events; `none` as soon as a step is illegal. -/
def qrun (s : QState) : List QEv → Option QState
  | [] => some s
  | e :: es =>
      match qstep s e with
      | none => none
      | some s1 => qrun s1 es

/-- The request identifiers that arrived, in arrival order. -/
def arrivals (es : List QEv) : List Nat :=
  es.filterMap (fun e => match e with | .arrive r => some r | _ => none)

/-- The backend-event block of one completed request. -/
def pairEv (r : Nat) : List BEv := [.callBegin r, .callEnd r]

/-- The trailing backend events of the in-flight request, if any. -/
def tailEv : Option Nat → List BEv
  | some r => [.callBegin r]
  | none => []

/-- The two backend calls of one successful non-final `OPEN` iteration:
open with the mode, then close the just-opened descriptor. -/
def pairFsOp (p : Nat × Nat) : List FsOp := [.fsOpen p.1, .fsClose p.2]

/-- Total serialized size of a list of directory items. -/
def sizeSum (l : List SftpItem) : Nat := (l.map SftpItem.wireSize).sum

/-- Whether draining `l` from position `pos` keeps every intermediate
position within the 0x7000 soft budget (so the loop writes all of `l` and
continues). -/
def drainFits : List SftpItem → Nat → Bool
  | [], _ => true
  | i :: rest, pos =>
      decide (pos + i.wireSize ≤ 0x7000) && drainFits rest (pos + i.wireSize)

/-- Invariant of the per-handle discipline: the lock is held exactly while
a backend call is in flight, an idle handle has an empty queue, and the
backend trace is the begin/end blocks of the completed requests followed
by the begin of the in-flight one. -/
def QInv (s : QState) : Prop :=
  s.locked = s.running.isSome ∧
  (s.running = none → s.tasks = []) ∧
  s.trace = s.doneL.flatMap pairEv ++ tailEv s.running

lemma list_set_getD_self {α : Type} :
    ∀ (l : List α) (i : Nat) (d : α), l.set i (l.getD i d) = l := by
  intro l
  induction l with
  | nil => intro i d; rfl
  | cons a t ih =>
      intro i d
      cases i with
      | zero => rfl
      | succ n => simpa [List.set] using ih n d

lemma list_getD_set_self {α : Type} :
    ∀ (l : List α) (i : Nat) (v d : α), i < l.length →
      (l.set i v).getD i d = v := by
  intro l
  induction l with
  | nil => intro i v d h; simp at h
  | cons a t ih =>
      intro i v d h
      cases i with
      | zero => rfl
      | succ n =>
          simp only [List.length_cons, Nat.succ_lt_succ_iff] at h
          simpa [List.set] using ih n v d h

lemma list_getD_lt_length {α : Type} :
    ∀ (l : List (Option α)) (i : Nat) (x : α),
      l.getD i none = some x → i < l.length := by
  intro l
  induction l with
  | nil => intro i x h; simp [List.getD] at h
  | cons a t ih =>
      intro i x h
      cases i with
      | zero => simp
      | succ n =>
          simp only [List.length_cons, Nat.succ_lt_succ_iff]
          exact ih n x (by simpa using h)

lemma toInt32_idem (e : Int) : toInt32 (toInt32 e) = toInt32 e := by
  have h1 : 0 ≤ e % 4294967296 := Int.emod_nonneg _ (by norm_num)
  have h2 : e % 4294967296 < 4294967296 := Int.emod_lt_of_pos _ (by norm_num)
  by_cases hc : e % 4294967296 < 2147483648
  · have hv : toInt32 e = e % 4294967296 := by
      unfold toInt32
      rw [if_pos hc]
    rw [hv]
    unfold toInt32
    have h3 : e % 4294967296 % 4294967296 = e % 4294967296 := by omega
    rw [h3, if_pos hc]
  · have hv : toInt32 e = e % 4294967296 - 4294967296 := by
      unfold toInt32
      rw [if_neg hc]
    rw [hv]
    unfold toInt32
    have h3 : (e % 4294967296 - 4294967296) % 4294967296 = e % 4294967296 := by
      omega
    rw [h3, if_neg hc]

/-- C6.  Errno mapping: the `SftpException` constructor first wraps the
errno to a signed 32-bit value (`err.errno | 0`), so the mapping factors
through `toInt32`; the table maps 1 to EOF, 3 to PERMISSION_DENIED,
34 / -2 / -4058 to NO_SUCH_FILE, 35 to OP_UNSUPPORTED, 57 to
NO_SUCH_FILE, and every other listed errno to FAILURE with its
descriptive text; any errno whose wrapped value is unmapped yields
FAILURE with the generic "Unknown error" message, except that an error
marked public keeps its original message. -/
theorem errnoMapping_correct :
    (∀ pub m,
      mkSftpException ⟨1, pub, m⟩ = ⟨.EOF, "End of file"⟩ ∧
      mkSftpException ⟨3, pub, m⟩ = ⟨.PERMISSION_DENIED, "Permission denied"⟩ ∧
      mkSftpException ⟨34, pub, m⟩ = ⟨.NO_SUCH_FILE, "No such file or directory"⟩ ∧
      mkSftpException ⟨-2, pub, m⟩ = ⟨.NO_SUCH_FILE, "No such file or directory"⟩ ∧
      mkSftpException ⟨-4058, pub, m⟩ = ⟨.NO_SUCH_FILE, "No such file or directory"⟩ ∧
      mkSftpException ⟨35, pub, m⟩ = ⟨.OP_UNSUPPORTED, "Function not implemented"⟩ ∧
      mkSftpException ⟨57, pub, m⟩ = ⟨.NO_SUCH_FILE, "No such device"⟩ ∧
      mkSftpException ⟨4, pub, m⟩ = ⟨.FAILURE, "Try again"⟩ ∧
      mkSftpException ⟨9, pub, m⟩ = ⟨.FAILURE, "Bad file number"⟩ ∧
      mkSftpException ⟨10, pub, m⟩ = ⟨.FAILURE, "Device or resource busy"⟩ ∧
      mkSftpException ⟨18, pub, m⟩ = ⟨.FAILURE, "Invalid argument"⟩ ∧
      mkSftpException ⟨20, pub, m⟩ = ⟨.FAILURE, "Too many open files"⟩ ∧
      mkSftpException ⟨24, pub, m⟩ = ⟨.FAILURE, "File table overflow"⟩ ∧
      mkSftpException ⟨25, pub, m⟩ = ⟨.FAILURE, "No buffer space available"⟩ ∧
      mkSftpException ⟨26, pub, m⟩ = ⟨.FAILURE, "Out of memory"⟩ ∧
      mkSftpException ⟨27, pub, m⟩ = ⟨.FAILURE, "Not a directory"⟩ ∧
      mkSftpException ⟨28, pub, m⟩ = ⟨.FAILURE, "Is a directory"⟩ ∧
      mkSftpException ⟨47, pub, m⟩ = ⟨.FAILURE, "File exists"⟩ ∧
      mkSftpException ⟨49, pub, m⟩ = ⟨.FAILURE, "File name too long"⟩ ∧
      mkSftpException ⟨50, pub, m⟩ = ⟨.FAILURE, "Operation not permitted"⟩ ∧
      mkSftpException ⟨51, pub, m⟩ = ⟨.FAILURE, "Too many symbolic links encountered"⟩ ∧
      mkSftpException ⟨52, pub, m⟩ = ⟨.FAILURE, "Cross-device link"⟩ ∧
      mkSftpException ⟨53, pub, m⟩ = ⟨.FAILURE, "Directory not empty"⟩ ∧
      mkSftpException ⟨54, pub, m⟩ = ⟨.FAILURE, "No space left on device"⟩ ∧
      mkSftpException ⟨55, pub, m⟩ = ⟨.FAILURE, "I/O error"⟩ ∧
      mkSftpException ⟨56, pub, m⟩ = ⟨.FAILURE, "Read-only file system"⟩ ∧
      mkSftpException ⟨58, pub, m⟩ = ⟨.FAILURE, "Illegal seek"⟩ ∧
      mkSftpException ⟨59, pub, m⟩ = ⟨.FAILURE, "Operation canceled"⟩) ∧
    (∀ err : NodeError,
      mkSftpException err =
        mkSftpException ⟨toInt32 err.errno, err.isPublic, err.message⟩) ∧
    (∀ e m, toInt32 e ∉ mappedErrnos →
      mkSftpException ⟨e, true, m⟩ = ⟨.FAILURE, m⟩ ∧
      mkSftpException ⟨e, false, m⟩ =
        ⟨.FAILURE, "Unknown error (" ++ toString (toInt32 e) ++ ")"⟩) := by
  refine ⟨?_, ?_, ?_⟩
  · intro pub m
    refine ⟨rfl, rfl, rfl, rfl, rfl, rfl, rfl, rfl, rfl, rfl, rfl, rfl, rfl,
      rfl, rfl, rfl, rfl, rfl, rfl, rfl, rfl, rfl, rfl, rfl, rfl, rfl, rfl, rfl⟩
  · intro err
    simp only [mkSftpException, toInt32_idem]
  · intro e m h
    simp only [mappedErrnos, List.mem_cons, List.not_mem_nil, or_false,
      not_or] at h
    obtain ⟨h1, h2, h3, h4, h5, h6, h7, h8, h9, h10, h11, h12, h13, h14, h15,
      h16, h17, h18, h19, h20, h21, h22, h23, h24, h25, h26, h27, h28⟩ := h
    constructor <;>
      simp [mkSftpException, mkSftpExceptionCore, h1, h2, h3, h4, h5, h6, h7,
        h8, h9, h10, h11, h12, h13, h14, h15, h16, h17, h18, h19, h20, h21,
        h22, h23, h24, h25, h26, h27, h28]

/-- Witness for the errno mapping theorem: the unmapped errno 1000, and
the wrapped errno 2^32 + 1, which the `| 0` coercion folds to 1 and which
therefore maps to EOF. -/
theorem errnoMapping_witness :
    mkSftpException ⟨1000, true, "boom"⟩ = ⟨.FAILURE, "boom"⟩ ∧
    mkSftpException ⟨1000, false, "boom"⟩ =
      ⟨.FAILURE, "Unknown error (1000)"⟩ ∧
    mkSftpException ⟨4294967297, false, "boom"⟩ = ⟨.EOF, "End of file"⟩ := by
  refine ⟨(errnoMapping_correct.2.2 1000 "boom" (by decide)).1,
    (errnoMapping_correct.2.2 1000 "boom" (by decide)).2, ?_⟩
  rw [errnoMapping_correct.2.1 ⟨4294967297, false, "boom"⟩]
  exact (errnoMapping_correct.1 false "boom").1

lemma capRead_le (count : Nat) : capRead count ≤ 0x8000 := by
  unfold capRead
  split <;> omega

/-- C7.  READ behaviour: the requested length handed to the backend is
capped at 0x8000; a backend error is mapped; zero bytes read reply EOF;
otherwise the DATA packet carries the backend bytes in the reserved region
with the actual bytes-read count written in the reserved length field. -/
theorem readRequest_correct :
    (∀ count, readBackendLen count = min count 0x8000) ∧
    (∀ count e, readRequest count (.error e) =
      .errReply (mkSftpException e).code (mkSftpException e).message) ∧
    (∀ count, readRequest count (.ok []) = .eofReply) ∧
    (∀ count b bs, readRequest count (.ok (b :: bs)) =
      .dataReply ⟨(b :: bs).length, b :: bs, 13 + (b :: bs).length⟩) := by
  have hc : ∀ count, ¬ (9 + (4 + capRead count) > 34000) := by
    intro count
    have := capRead_le count
    omega
  refine ⟨?_, ?_, ?_, ?_⟩
  · intro count
    unfold readBackendLen capRead
    split <;> omega
  · intro count e
    simp [readRequest, hc count]
  · intro count
    simp [readRequest, hc count]
  · intro count b bs
    simp [readRequest, hc count]

/-- C10.  A handle-bound request rejected at dispatch with FAILURE
"Invalid handle" (length field other than 4, or no active table entry)
returns the session state untouched: no lock is taken, no task is
enqueued, and no queue is advanced — the response carries no handle info,
so `send` does not invoke `processNext`. -/
theorem invalidHandle_frame (s : SftpServerSession) (r : SftpRequest)
    (hb : isHandleBound r.reqType = true)
    (hrej : r.hLenField ≠ 4 ∨ lookupHandle s r.hIdx = none) :
    processMessage s r = ⟨s, .statusReply .FAILURE "Invalid handle", none⟩ := by
  have hne : r.reqType ≠ .INIT := by
    intro h
    rw [h] at hb
    simp [isHandleBound] at hb
  rcases hrej with h | h
  · simp [processMessage, hne, hb, h]
  · by_cases hl : r.hLenField = 4
    · simp [processMessage, hne, hb, hl, h]
    · simp [processMessage, hne, hb, hl]

/-- Witness for the invalid-handle frame theorem: an unknown index and a
wrong length field, on a session with one open handle. -/
theorem invalidHandle_frame_witness :
    processMessage ⟨true, false, [none, some (newHandleInfo 1)], 2⟩
        ⟨.READ, 20, 4, 3, [], 0⟩ =
      ⟨⟨true, false, [none, some (newHandleInfo 1)], 2⟩,
       .statusReply .FAILURE "Invalid handle", none⟩ ∧
    processMessage ⟨true, false, [none, some (newHandleInfo 1)], 2⟩
        ⟨.CLOSE, 20, 8, 1, [], 0⟩ =
      ⟨⟨true, false, [none, some (newHandleInfo 1)], 2⟩,
       .statusReply .FAILURE "Invalid handle", none⟩ :=
  ⟨invalidHandle_frame ⟨true, false, [none, some (newHandleInfo 1)], 2⟩
      ⟨.READ, 20, 4, 3, [], 0⟩ (by decide) (Or.inr (by decide)),
   invalidHandle_frame ⟨true, false, [none, some (newHandleInfo 1)], 2⟩
      ⟨.CLOSE, 20, 8, 1, [], 0⟩ (by decide) (Or.inl (by decide))⟩

/-- C4 counterexample: an INIT packet with declared length 70,000 is
answered with VERSION, not with BAD_MESSAGE — `_process` replies to INIT
before any length check runs. -/
theorem oversizePacket_counterexample :
    processMessage ⟨true, false, [], 1⟩ ⟨.INIT, 70000, 0, 0, [], 0⟩ =
      ⟨⟨true, false, [], 1⟩, .versionReply, none⟩ ∧
    Outcome.versionReply ≠
      Outcome.statusReply .BAD_MESSAGE "Packet too long" := by
  constructor
  · rfl
  · decide

/-- C4 (amended).  Every non-INIT request whose handler runs — the session
still holds its filesystem, and for a handle-bound type the handle
resolves to an unlocked entry with an empty queue — with declared length
over 66,000 is answered BAD_MESSAGE "Packet too long", and the session
state is left exactly as it was (so it continues processing subsequent
requests). -/
theorem oversizePacket_badMessage (s : SftpServerSession) (r : SftpRequest)
    (hi : SftpHandleInfo)
    (hfs : s.fsPresent = true)
    (hlen : r.len > 66000)
    (hni : r.reqType ≠ .INIT)
    (hh : isHandleBound r.reqType = true →
      r.hLenField = 4 ∧ lookupHandle s r.hIdx = some hi ∧
      hi.locked = false ∧ hi.tasks = []) :
    processMessage s r =
      ⟨s, .statusReply .BAD_MESSAGE "Packet too long", none⟩ := by
  by_cases hb : isHandleBound r.reqType
  · obtain ⟨h4, hlk, hlck, htk⟩ := hh hb
    have hlt : r.hIdx < s.handles.length := list_getD_lt_length _ _ _ hlk
    obtain ⟨hh0, bh0, it0, lk0, tk0⟩ := hi
    have hlck' : lk0 = false := hlck
    have htk' : tk0 = [] := htk
    subst hlck'
    subst htk'
    have hget : ∀ v : Option SftpHandleInfo,
        lookupHandle (setHandle s r.hIdx v) r.hIdx = v := by
      intro v
      simp only [lookupHandle, setHandle]
      exact list_getD_set_self _ _ _ _ hlt
    have hself : setHandle s r.hIdx (some ⟨hh0, bh0, it0, false, []⟩) = s := by
      simp only [setHandle]
      rw [← hlk]
      simp only [lookupHandle]
      rw [list_set_getD_self]
    have f1 : (setHandle s r.hIdx
        (some ⟨hh0, bh0, it0, true, []⟩)).fsPresent = true := hfs
    have hl1 : lookupHandle (setHandle s r.hIdx
        (some ⟨hh0, bh0, it0, true, []⟩)) r.hIdx =
        some ⟨hh0, bh0, it0, true, []⟩ := hget _
    have hpn : processNext (setHandle s r.hIdx
        (some ⟨hh0, bh0, it0, true, []⟩)) r.hIdx = (s, none) := by
      simp only [processNext, hl1]
      rw [show setHandle (setHandle s r.hIdx (some ⟨hh0, bh0, it0, true, []⟩))
            r.hIdx (some ⟨hh0, bh0, it0, false, []⟩) =
          setHandle s r.hIdx (some ⟨hh0, bh0, it0, false, []⟩) from by
        simp [setHandle, List.set_set]]
      rw [hself]
    simp only [processMessage, hni, if_neg, hb, if_true, h4, ne_eq,
      not_true_eq_false, if_false, hlk, ite_false, ite_true]
    simp only [processRequest, sendStatusStep, f1, hlen, not_true_eq_false,
      ite_false, ite_true, gt_iff_lt, if_false, if_true]
    simp only [hpn]
    simp
  · simp [processMessage, hni, hb, processRequest, hfs, hlen, sendStatusStep]

/-- Witness for the oversize theorem: an oversize CLOSE on a valid unlocked
handle and an oversize STAT, both answered BAD_MESSAGE with the session
unchanged. -/
theorem oversizePacket_badMessage_witness :
    processMessage ⟨true, false, [none, some (newHandleInfo 1)], 2⟩
        ⟨.CLOSE, 66001, 4, 1, [], 0⟩ =
      ⟨⟨true, false, [none, some (newHandleInfo 1)], 2⟩,
       .statusReply .BAD_MESSAGE "Packet too long", none⟩ ∧
    processMessage ⟨true, false, [none, some (newHandleInfo 1)], 2⟩
        ⟨.STAT, 70000, 0, 0, [], 0⟩ =
      ⟨⟨true, false, [none, some (newHandleInfo 1)], 2⟩,
       .statusReply .BAD_MESSAGE "Packet too long", none⟩ :=
  ⟨oversizePacket_badMessage ⟨true, false, [none, some (newHandleInfo 1)], 2⟩
      ⟨.CLOSE, 66001, 4, 1, [], 0⟩ (newHandleInfo 1) rfl (by decide)
      (by decide) (fun _ => ⟨rfl, rfl, rfl, rfl⟩),
   oversizePacket_badMessage ⟨true, false, [none, some (newHandleInfo 1)], 2⟩
      ⟨.STAT, 70000, 0, 0, [], 0⟩ (newHandleInfo 1) rfl (by decide)
      (by decide) (fun h => by simp [isHandleBound] at h)⟩

/-- C3 counterexample: after `end()` the session is not inert — an INIT
packet still gets a VERSION reply, so a further `_process` invocation is
not a no-op. -/
theorem endNoop_counterexample :
    processMessage (endSession ⟨true, false, [], 1⟩).1
        ⟨.INIT, 5, 0, 0, [], 0⟩ =
      ⟨(endSession ⟨true, false, [], 1⟩).1, .versionReply, none⟩ ∧
    Outcome.versionReply ≠ Outcome.dropped := by
  constructor
  · rfl
  · decide

/-- C3 (amended).  `end()` is idempotent; it closes the channel; when the
filesystem reference is still held it submits the backend handle of every
occupied table slot to a backend close and drops the reference; and once
the filesystem reference is gone, a further `_process` invocation never
reaches a request handler: no backend filesystem call is started (though
INIT and invalid-handle replies are still emitted). -/
theorem sessionTeardown_amended :
    (∀ s : SftpServerSession,
      endSession (endSession s).1 = ((endSession s).1, [])) ∧
    (∀ s : SftpServerSession, (endSession s).1.channelClosed = true) ∧
    (∀ s : SftpServerSession, (endSession s).1.fsPresent = false) ∧
    (∀ s : SftpServerSession, s.fsPresent = true →
      (endSession s).2 = s.handles.filterMap (fun o => o.map SftpHandleInfo.bh)) ∧
    (∀ (s : SftpServerSession) (r : SftpRequest) (t : SftpPacketType),
      s.fsPresent = false → (processMessage s r).out ≠ .backendStarted t) := by
  refine ⟨?_, ?_, ?_, ?_, ?_⟩
  · intro s
    by_cases hf : s.fsPresent <;> simp [endSession, hf]
  · intro s
    by_cases hf : s.fsPresent <;> simp [endSession, hf]
  · intro s
    by_cases hf : s.fsPresent <;> simp [endSession, hf]
  · intro s hf
    simp [endSession, hf]
  · intro s r t hf
    by_cases hI : r.reqType = .INIT
    · simp [processMessage, hI]
    · by_cases hb : isHandleBound r.reqType
      · simp only [processMessage, hI, if_neg, hb, if_true, ite_false,
          ite_true]
        by_cases h4 : r.hLenField ≠ 4
        · simp [h4]
        · simp only [h4, ite_false, ite_true, if_neg, if_true,
            not_true_eq_false, not_false_eq_true]
          cases hlk : lookupHandle s r.hIdx with
          | none => simp
          | some hi =>
              by_cases hl : hi.locked
              · simp [hl]
              · simp only [hl, ite_false, if_false, Bool.false_eq_true]
                have : (setHandle s r.hIdx
                    (some { hi with locked := true })).fsPresent = false := hf
                simp [processRequest, this]
      · simp [processMessage, hI, hb, processRequest, hf]

/-- Witness for the teardown theorem: a one-handle session; ending twice is
the same as ending once, the backend handle 7 is submitted to close, and a
CLOSE on the still-tabled handle starts no backend call after teardown. -/
theorem sessionTeardown_witness :
    endSession (endSession ⟨true, false,
        [none, some ⟨1, some 7, none, false, []⟩], 2⟩).1 =
      ((endSession ⟨true, false,
        [none, some ⟨1, some 7, none, false, []⟩], 2⟩).1, []) ∧
    (endSession ⟨true, false,
        [none, some ⟨1, some 7, none, false, []⟩], 2⟩).2 = [some 7] ∧
    (processMessage (endSession ⟨true, false,
        [none, some ⟨1, some 7, none, false, []⟩], 2⟩).1
        ⟨.CLOSE, 10, 4, 1, [], 0⟩).out ≠ .backendStarted .CLOSE :=
  ⟨sessionTeardown_amended.1 _,
   by rw [sessionTeardown_amended.2.2.2.1 _ rfl]; rfl,
   sessionTeardown_amended.2.2.2.2 _ _ _ (sessionTeardown_amended.2.2.1 _)⟩

lemma wrapNext_bounds (h : Nat) : 1 ≤ wrapNext h ∧ wrapNext h ≤ 512 := by
  unfold wrapNext MAX_HANDLE_COUNT
  have : h % 512 < 512 := Nat.mod_lt _ (by omega)
  omega

lemma scanAlloc_eq_find (free : Nat → Bool) :
    ∀ (n h : Nat), scanAlloc free h n = (probeSeq h n).find? free := by
  intro n
  induction n with
  | zero => intro h; rfl
  | succ k ih =>
      intro h
      by_cases hf : free h <;>
        simp [scanAlloc, probeSeq, List.find?, hf, ih]

lemma probeSeq_bounds :
    ∀ (n h : Nat), 1 ≤ h → h ≤ 512 →
      ∀ x ∈ probeSeq h n, 1 ≤ x ∧ x ≤ 512 := by
  intro n
  induction n with
  | zero => intro h _ _ x hx; simp [probeSeq] at hx
  | succ k ih =>
      intro h h1 h2 x hx
      simp only [probeSeq, List.mem_cons] at hx
      rcases hx with rfl | hx
      · exact ⟨h1, h2⟩
      · exact ih (wrapNext h) (wrapNext_bounds h).1 (wrapNext_bounds h).2 x hx

/-- C8.  Handle-table bounds: the allocation scan is exactly a first-free
search along the probe sequence that starts at the rolling cursor; every
allocated index (the value stored and later sent in the HANDLE reply)
satisfies 1 ≤ h ≤ 512 and the cursor advances to the next position; and
when all 512 slots are occupied, an OPEN is answered FAILURE "Too many
open handles" with the session — and hence every existing handle —
untouched. -/
theorem handleTable_correct :
    (∀ (free : Nat → Bool) (n h : Nat),
      scanAlloc free h n = (probeSeq h n).find? free) ∧
    (∀ (s s1 : SftpServerSession) (h : Nat),
      createHandleInfo s = some (s1, h) →
      1 ≤ s.nextHandle → s.nextHandle ≤ 512 →
      (1 ≤ h ∧ h ≤ 512) ∧ s1.nextHandle = wrapNext h ∧
        lookupHandle s h = none ∧
        s1.handles = s.handles.set h (some (newHandleInfo h))) ∧
    (∀ (s : SftpServerSession) (len a b tid m : Nat) (ms : List Nat),
      s.fsPresent = true → len ≤ 66000 →
      1 ≤ s.nextHandle → s.nextHandle ≤ 512 →
      ((List.range' 1 512).all fun h => (lookupHandle s h).isSome) = true →
      processMessage s ⟨.OPEN, len, a, b, m :: ms, tid⟩ =
        ⟨s, .statusReply .FAILURE "Too many open handles", none⟩) := by
  refine ⟨fun free n h => scanAlloc_eq_find free n h, ?_, ?_⟩
  · intro s s1 h hc h1 h2
    unfold createHandleInfo at hc
    cases hsc : scanAlloc (fun h => (lookupHandle s h).isNone) s.nextHandle
        MAX_HANDLE_COUNT with
    | none => rw [hsc] at hc; exact absurd hc (by simp)
    | some hA =>
        rw [hsc] at hc
        simp only [Option.some.injEq, Prod.mk.injEq] at hc
        obtain ⟨hs1, rfl⟩ := hc
        rw [scanAlloc_eq_find] at hsc
        have hmem : hA ∈ probeSeq s.nextHandle MAX_HANDLE_COUNT :=
          List.mem_of_find?_eq_some hsc
        have hfree := List.find?_some hsc
        refine ⟨probeSeq_bounds _ _ h1 h2 hA hmem, ?_, ?_, ?_⟩
        · rw [← hs1]
        · exact Option.isNone_iff_eq_none.mp hfree
        · rw [← hs1]
          simp [setHandle]
  · intro s len a b tid m ms hfs hlen h1 h2 hall
    have hscan : scanAlloc (fun h => (lookupHandle s h).isNone) s.nextHandle
        MAX_HANDLE_COUNT = none := by
      rw [scanAlloc_eq_find]
      rw [List.find?_eq_none]
      intro x hx
      have hb := probeSeq_bounds _ _ h1 h2 x hx
      have hxr : x ∈ List.range' 1 512 := by
        rw [List.mem_range'_1]
        omega
      have := List.all_eq_true.mp hall x hxr
      simp only [Option.isNone_iff_eq_none]
      intro hnone
      rw [hnone] at this
      simp at this
    have hco : createHandleInfo s = none := by
      unfold createHandleInfo
      rw [hscan]
    simp [processMessage, processRequest, isHandleBound, hfs, sendStatusStep,
      hco, Nat.not_lt.mpr hlen]

/-- Witness for the handle-table theorem: allocation on a fresh table
yields index 1 and advances the cursor to 2; on a full table, OPEN is
refused with the table untouched. -/
theorem handleTable_witness :
    ((1 ≤ 2 ∧ 2 ≤ 512) ∧
      ({ fsPresent := true, channelClosed := false,
         handles := [none, none, some (newHandleInfo 2)], nextHandle := 3 } :
          SftpServerSession).nextHandle = wrapNext 2 ∧
      lookupHandle ⟨true, false, [none, none, none], 2⟩ 2 = none ∧
      ({ fsPresent := true, channelClosed := false,
         handles := [none, none, some (newHandleInfo 2)], nextHandle := 3 } :
          SftpServerSession).handles =
        [none, none, none].set 2 (some (newHandleInfo 2))) ∧
    processMessage
        ⟨true, false, none :: List.replicate 512 (some (newHandleInfo 1)), 3⟩
        ⟨.OPEN, 44, 0, 0, [9], 0⟩ =
      ⟨⟨true, false, none :: List.replicate 512 (some (newHandleInfo 1)), 3⟩,
       .statusReply .FAILURE "Too many open handles", none⟩ := by
  constructor
  · exact handleTable_correct.2.1 ⟨true, false, [none, none, none], 2⟩
      ⟨true, false, [none, none, some (newHandleInfo 2)], 3⟩ 2
      (by decide) (by decide) (by decide)
  · exact handleTable_correct.2.2 _ 44 0 0 0 9 [] rfl (by decide)
      (by decide) (by decide) (by decide)

lemma openFile_success :
    ∀ (pre : List (Nat × Nat)) (m bh : Nat),
      openFile (pre.map (fun p => Except.ok p.2) ++ [Except.ok bh])
          (List.replicate pre.length none) (pre.map Prod.fst ++ [m]) =
        some (.handleReply bh, false, pre.flatMap pairFsOp ++ [.fsOpen m]) := by
  intro pre
  induction pre with
  | nil => intro m bh; rfl
  | cons p pre ih =>
      intro m bh
      cases hms : pre.map Prod.fst ++ [m] with
      | nil => simp at hms
      | cons m2 ms' =>
          simp only [List.map_cons, List.cons_append, List.length_cons,
            List.replicate_succ]
          rw [hms]
          simp only [openFile]
          rw [← hms, ih m bh]
          simp [pairFsOp]

lemma openFile_openError :
    ∀ (pre : List (Nat × Nat)) (m : Nat) (ms : List Nat) (e : NodeError)
      (os : List (Except NodeError Nat)) (cs : List (Option NodeError)),
      openFile (pre.map (fun p => Except.ok p.2) ++ Except.error e :: os)
          (List.replicate pre.length none ++ cs) (pre.map Prod.fst ++ m :: ms) =
        some (.statusReply (mkSftpException e).code (mkSftpException e).message,
              true, pre.flatMap pairFsOp ++ [.fsOpen m]) := by
  intro pre
  induction pre with
  | nil =>
      intro m ms e os cs
      cases ms <;> rfl
  | cons p pre ih =>
      intro m ms e os cs
      cases hms : pre.map Prod.fst ++ m :: ms with
      | nil => simp at hms
      | cons m2 ms' =>
          simp only [List.map_cons, List.cons_append, List.length_cons,
            List.replicate_succ]
          rw [hms]
          simp only [openFile]
          rw [← hms, ih m ms e os cs]
          simp [pairFsOp]

lemma openFile_closeError :
    ∀ (pre : List (Nat × Nat)) (m m2 : Nat) (ms : List Nat) (bh : Nat)
      (e : NodeError) (os : List (Except NodeError Nat))
      (cs : List (Option NodeError)),
      openFile (pre.map (fun p => Except.ok p.2) ++ Except.ok bh :: os)
          (List.replicate pre.length none ++ some e :: cs)
          (pre.map Prod.fst ++ m :: m2 :: ms) =
        some (.statusReply (mkSftpException e).code (mkSftpException e).message,
              true, pre.flatMap pairFsOp ++ [.fsOpen m, .fsClose bh]) := by
  intro pre
  induction pre with
  | nil => intro m m2 ms bh e os cs; rfl
  | cons p pre ih =>
      intro m m2 ms bh e os cs
      cases hms : pre.map Prod.fst ++ m :: m2 :: ms with
      | nil => simp at hms
      | cons m3 ms' =>
          simp only [List.map_cons, List.cons_append, List.length_cons,
            List.replicate_succ]
          rw [hms]
          simp only [openFile]
          rw [← hms, ih m m2 ms bh e os cs]
          simp [pairFsOp]

/-- C2.  OPEN fallback: an OPEN whose pflags decode to the empty mode list
is answered FAILURE "Unsupported flags"; with a non-empty list a handle is
allocated and the fallback loop starts; the loop iterates the modes in
order — after `k` successful open/close rounds, a backend error (from
open or from the intermediate close) replies the mapped status and frees
the handle, a success on the last mode stores that backend handle and
replies HANDLE, and every successful non-final open is followed by a close
of the just-opened descriptor before the next mode is tried. -/
theorem openFallback_correct :
    (∀ (s : SftpServerSession) (len a b tid : Nat),
      s.fsPresent = true → len ≤ 66000 →
      processMessage s ⟨.OPEN, len, a, b, [], tid⟩ =
        ⟨s, .statusReply .FAILURE "Unsupported flags", none⟩) ∧
    (∀ (s s1 : SftpServerSession) (len a b tid m hA : Nat) (ms : List Nat),
      s.fsPresent = true → len ≤ 66000 →
      createHandleInfo s = some (s1, hA) →
      processMessage s ⟨.OPEN, len, a, b, m :: ms, tid⟩ =
        ⟨s1, .backendStarted .OPEN, none⟩) ∧
    (∀ (pre : List (Nat × Nat)) (m bh : Nat),
      openFile (pre.map (fun p => Except.ok p.2) ++ [Except.ok bh])
          (List.replicate pre.length none) (pre.map Prod.fst ++ [m]) =
        some (.handleReply bh, false, pre.flatMap pairFsOp ++ [.fsOpen m])) ∧
    (∀ (pre : List (Nat × Nat)) (m : Nat) (ms : List Nat) (e : NodeError)
      (os : List (Except NodeError Nat)) (cs : List (Option NodeError)),
      openFile (pre.map (fun p => Except.ok p.2) ++ Except.error e :: os)
          (List.replicate pre.length none ++ cs) (pre.map Prod.fst ++ m :: ms) =
        some (.statusReply (mkSftpException e).code (mkSftpException e).message,
              true, pre.flatMap pairFsOp ++ [.fsOpen m])) ∧
    (∀ (pre : List (Nat × Nat)) (m m2 : Nat) (ms : List Nat) (bh : Nat)
      (e : NodeError) (os : List (Except NodeError Nat))
      (cs : List (Option NodeError)),
      openFile (pre.map (fun p => Except.ok p.2) ++ Except.ok bh :: os)
          (List.replicate pre.length none ++ some e :: cs)
          (pre.map Prod.fst ++ m :: m2 :: ms) =
        some (.statusReply (mkSftpException e).code (mkSftpException e).message,
              true, pre.flatMap pairFsOp ++ [.fsOpen m, .fsClose bh])) := by
  refine ⟨?_, ?_, openFile_success, openFile_openError, openFile_closeError⟩
  · intro s len a b tid hfs hlen
    simp [processMessage, isHandleBound, processRequest, hfs,
      Nat.not_lt.mpr hlen, sendStatusStep]
  · intro s s1 len a b tid m hA ms hfs hlen hc
    simp [processMessage, isHandleBound, processRequest, hfs,
      Nat.not_lt.mpr hlen, hc]

/-- Witness for the OPEN fallback theorem: empty modes are refused; a
two-mode request whose first open succeeds closes descriptor 10 and keeps
descriptor 11 of the second open; an error on the second open frees the
handle and maps errno 3 to PERMISSION_DENIED. -/
theorem openFallback_witness :
    processMessage ⟨true, false, [none, none], 1⟩ ⟨.OPEN, 30, 0, 0, [], 5⟩ =
      ⟨⟨true, false, [none, none], 1⟩,
       .statusReply .FAILURE "Unsupported flags", none⟩ ∧
    openFile [Except.ok 10, Except.ok 11] [none] [1, 2] =
      some (.handleReply 11, false,
            [.fsOpen 1, .fsClose 10, .fsOpen 2]) ∧
    openFile [Except.ok 10, Except.error ⟨3, false, "x"⟩] [none] [1, 2] =
      some (.statusReply .PERMISSION_DENIED "Permission denied", true,
            [.fsOpen 1, .fsClose 10, .fsOpen 2]) := by
  refine ⟨openFallback_correct.1 _ 30 0 0 5 rfl (by decide), ?_, ?_⟩
  · exact openFallback_correct.2.2.1 [(1, 10)] 2 11
  · exact openFallback_correct.2.2.2.1 [(1, 10)] 2 [] ⟨3, false, "x"⟩ [] []

lemma drainFits_cons {i : SftpItem} {rest : List SftpItem} {pos : Nat}
    (h : drainFits (i :: rest) pos = true) :
    pos + i.wireSize ≤ 0x7000 ∧ drainFits rest (pos + i.wireSize) = true := by
  simpa [drainFits, Bool.and_eq_true, decide_eq_true_eq] using h

lemma rdDrain_through :
    ∀ (l : List SftpItem) (pos count : Nat) (acc : List SftpItem),
      drainFits l pos = true →
      rdDrain l pos count acc =
        .through (acc ++ l) (count + l.length) (pos + sizeSum l) := by
  intro l
  induction l with
  | nil => intro pos count acc _; simp [rdDrain, sizeSum]
  | cons i rest ih =>
      intro pos count acc hf
      obtain ⟨h1, h2⟩ := drainFits_cons hf
      rw [rdDrain, if_neg (by omega), if_neg (by omega), ih _ _ _ h2]
      congr 1
      · simp
      · simp [List.length_cons]
        omega
      · simp [sizeSum]
        omega

lemma rdDrain_cross :
    ∀ (w : List SftpItem) (i : SftpItem) (rest : List SftpItem)
      (pos count : Nat) (acc : List SftpItem),
      drainFits w pos = true →
      pos + sizeSum w + i.wireSize ≤ 34000 →
      pos + sizeSum w + i.wireSize > 0x7000 →
      rdDrain (w ++ i :: rest) pos count acc =
        .stop (acc ++ w ++ [i]) (count + w.length + 1)
          (pos + sizeSum w + i.wireSize) rest := by
  intro w
  induction w with
  | nil =>
      intro i rest pos count acc _ h34 h70
      simp only [sizeSum, List.map_nil, List.sum_nil, Nat.add_zero] at h34 h70
      rw [List.nil_append, rdDrain, if_neg (by omega), if_pos (by omega)]
      simp [sizeSum]
  | cons x w ih =>
      intro i rest pos count acc hf h34 h70
      obtain ⟨h1, h2⟩ := drainFits_cons hf
      have hsz : sizeSum (x :: w) = x.wireSize + sizeSum w := by
        simp [sizeSum]
      rw [hsz] at h34 h70
      rw [List.cons_append, rdDrain, if_neg (by omega), if_neg (by omega),
        ih i rest _ _ _ h2 (by omega) (by omega)]
      congr 1
      · simp
      · simp [List.length_cons]
        omega
      · rw [hsz]
        omega

/-- C5.  READDIR pagination: a fresh poll whose batch crosses the 0x7000
soft budget writes items up to and including the crossing one, stashes the
remaining items on the handle info and finalizes the NAME packet with the
count placeholder patched to the actual number written — without polling
the backend again; leftover items stashed by a previous call are treated
the same way before any backend poll, and when they run out below the
budget the backend is polled with the position and count carried over; an
end-of-stream answer with zero items written replies EOF. -/
theorem readdirPagination_correct :
    (∀ (w : List SftpItem) (i : SftpItem) (rest : List SftpItem)
      (more : List ReaddirPoll),
      drainFits w 13 = true →
      13 + sizeSum w + i.wireSize ≤ 34000 →
      13 + sizeSum w + i.wireSize > 0x7000 →
      readdirRequest none (.batch (w ++ i :: rest) :: more) =
        .nameReply (w ++ [i]) (w.length + 1) (some rest)) ∧
    (∀ (w : List SftpItem) (i : SftpItem) (rest : List SftpItem)
      (oracle : List ReaddirPoll),
      drainFits w 13 = true →
      13 + sizeSum w + i.wireSize ≤ 34000 →
      13 + sizeSum w + i.wireSize > 0x7000 →
      readdirRequest (some (w ++ i :: rest)) oracle =
        .nameReply (w ++ [i]) (w.length + 1) (some rest)) ∧
    (∀ (p : SftpItem) (ps : List SftpItem) (oracle : List ReaddirPoll),
      drainFits (p :: ps) 13 = true →
      readdirRequest (some (p :: ps)) oracle =
        rdPoll oracle (13 + sizeSum (p :: ps)) (p :: ps).length (p :: ps)
          (some [])) ∧
    (∀ more : List ReaddirPoll,
      readdirRequest none (.eos :: more) = .eofReply ∧
      readdirRequest (some []) (.eos :: more) = .eofReply) := by
  refine ⟨?_, ?_, ?_, ?_⟩
  · intro w i rest more hf h34 h70
    simp only [readdirRequest, rdPoll]
    rw [rdDrain_cross w i rest 13 0 [] hf h34 h70]
    simp
  · intro w i rest oracle hf h34 h70
    cases hw : w ++ i :: rest with
    | nil => simp at hw
    | cons p ps =>
        simp only [readdirRequest, hw]
        rw [← hw, rdDrain_cross w i rest 13 0 [] hf h34 h70]
        simp
  · intro p ps oracle hf
    simp only [readdirRequest]
    rw [rdDrain_through _ _ _ _ hf]
    simp
  · intro more
    exact ⟨rfl, rfl⟩

/-- Witness for the READDIR pagination theorem: two 14,000-byte items fit
under the budget, a third 1,000-byte item crosses it and is still written,
and the 5-byte remainder is stashed; the same batch arriving as a stash
behaves identically; an immediate end-of-stream replies EOF. -/
theorem readdirPagination_witness :
    readdirRequest none
        [.batch [⟨0, 14000⟩, ⟨1, 14000⟩, ⟨2, 1000⟩, ⟨3, 5⟩]] =
      .nameReply [⟨0, 14000⟩, ⟨1, 14000⟩, ⟨2, 1000⟩] 3 (some [⟨3, 5⟩]) ∧
    readdirRequest (some [⟨0, 14000⟩, ⟨1, 14000⟩, ⟨2, 1000⟩, ⟨3, 5⟩]) [] =
      .nameReply [⟨0, 14000⟩, ⟨1, 14000⟩, ⟨2, 1000⟩] 3 (some [⟨3, 5⟩]) ∧
    readdirRequest none [.eos] = .eofReply := by
  refine ⟨?_, ?_, (readdirPagination_correct.2.2.2 []).1⟩
  · have := readdirPagination_correct.1 [⟨0, 14000⟩, ⟨1, 14000⟩] ⟨2, 1000⟩
      [⟨3, 5⟩] [] (by decide) (by decide) (by decide)
    simpa using this
  · have := readdirPagination_correct.2.1 [⟨0, 14000⟩, ⟨1, 14000⟩] ⟨2, 1000⟩
      [⟨3, 5⟩] [] (by decide) (by decide) (by decide)
    simpa using this

lemma rdDrain_small :
    ∀ (l : List SftpItem) (pos count : Nat) (acc : List SftpItem),
      (l.all fun i => i.wireSize ≤ 5328) = true → pos ≤ 0x7000 →
      rdDrain l pos count acc ≠ .ovf ∧
      (∀ w c p2, rdDrain l pos count acc = .through w c p2 → p2 ≤ 0x7000) := by
  intro l
  induction l with
  | nil =>
      intro pos count acc _ hp
      refine ⟨by simp [rdDrain], ?_⟩
      intro w c p2 h
      simp only [rdDrain, DrainRes.through.injEq] at h
      omega
  | cons i rest ih =>
      intro pos count acc hall hp
      simp only [List.all_cons, Bool.and_eq_true, decide_eq_true_eq] at hall
      obtain ⟨hi, hrest⟩ := hall
      rw [rdDrain, if_neg (by omega)]
      by_cases hcr : pos + i.wireSize > 0x7000
      · rw [if_pos hcr]
        exact ⟨by simp, by intro w c p2 h; simp at h⟩
      · rw [if_neg hcr]
        exact ih _ _ _ (by simpa using hrest) (by omega)

lemma rdPoll_small :
    ∀ (oracle : List ReaddirPoll) (pos count : Nat) (acc : List SftpItem)
      (stash : Option (List SftpItem)),
      (oracle.all fun p =>
        match p with
        | .batch l => l.all fun i => i.wireSize ≤ 5328
        | _ => true) = true →
      pos ≤ 0x7000 →
      rdPoll oracle pos count acc stash ≠ .ovf := by
  intro oracle
  induction oracle with
  | nil => intro pos count acc stash _ _; simp [rdPoll]
  | cons p ps ih =>
      intro pos count acc stash hall hp
      simp only [List.all_cons, Bool.and_eq_true] at hall
      obtain ⟨hph, hps⟩ := hall
      cases p with
      | fsErr e => simp [rdPoll]
      | eos =>
          simp only [rdPoll]
          split <;> simp
      | batch l =>
          simp only [rdPoll]
          have hsm := rdDrain_small l pos count acc (by simpa using hph) hp
          cases hd : rdDrain l pos count acc with
          | ovf => exact absurd hd hsm.1
          | stop w c p2 rest => simp
          | through w c p2 =>
              exact ih _ _ _ _ hps (hsm.2 w c p2 hd)

/-- C9 counterexample: a single directory item whose serialized form is
33,988 bytes does not fit the 34,000-byte response buffer when written at
position 13, so the READDIR path reaches the writer's capacity-check
error branch. -/
theorem responseCapacity_counterexample :
    readdirRequest none [.batch [⟨0, 33988⟩]] = .ovf ∧ 13 + 33988 > 34000 := by
  constructor
  · rfl
  · decide

/-- C9 (amended).  The response writer has a fixed 34,000-byte capacity.
Every READ response stays within it — the reserve check of the READ
handler can never fail, and the final position of a DATA reply is at most
34,000 when the backend honours the capped length.  A READDIR response
stays within it provided every offered directory item serializes to at
most 5,328 bytes (34,000 minus the 0x7000 soft budget); a larger item can
reach the capacity-check branch, as the counterexample shows. -/
theorem responseCapacity_amended :
    (∀ (count : Nat) (result : Except NodeError (List Nat)),
      readRequest count result ≠ .checkFail) ∧
    (∀ (count : Nat) (data : List Nat),
      data.length ≤ capRead count → 13 + data.length ≤ 34000) ∧
    (∀ (prev : Option (List SftpItem)) (oracle : List ReaddirPoll),
      smallItems prev oracle 5328 = true →
      readdirRequest prev oracle ≠ .ovf) := by
  refine ⟨?_, ?_, ?_⟩
  · intro count result
    have hle := capRead_le count
    have hcond : ¬ (9 + (4 + capRead count) > 34000) := by omega
    cases result with
    | error e => simp [readRequest, hcond]
    | ok data =>
        by_cases hd : data.length = 0 <;> simp [readRequest, hcond, hd]
  · intro count data h
    have := capRead_le count
    omega
  · intro prev oracle hsm
    simp only [smallItems, Bool.and_eq_true] at hsm
    obtain ⟨hp, ho⟩ := hsm
    cases prev with
    | none => exact rdPoll_small oracle 13 0 [] none ho (by omega)
    | some l =>
        cases l with
        | nil => exact rdPoll_small oracle 13 0 [] (some []) ho (by omega)
        | cons p ps =>
            simp only [readdirRequest]
            have hsmall : ((p :: ps).all fun i => i.wireSize ≤ 5328) = true := by
              simpa using hp
            have hd := rdDrain_small (p :: ps) 13 0 [] hsmall (by omega)
            cases hdr : rdDrain (p :: ps) 13 0 [] with
            | ovf => exact absurd hdr hd.1
            | stop w c p2 rest => simp
            | through w c p2 =>
                exact rdPoll_small oracle p2 c w (some []) ho (hd.2 w c p2 hdr)

/-- Witness for the capacity theorem: the READ check succeeds for an
oversized request, the DATA final position fits, and a READDIR with small
items never overflows. -/
theorem responseCapacity_witness :
    readRequest 100000 (.ok [1, 2, 3]) ≠ .checkFail ∧
    13 + ([1, 2, 3] : List Nat).length ≤ 34000 ∧
    readdirRequest none [.batch [⟨0, 5000⟩], .eos] ≠ .ovf :=
  ⟨responseCapacity_amended.1 100000 (.ok [1, 2, 3]),
   responseCapacity_amended.2.1 100000 [1, 2, 3] (by decide),
   responseCapacity_amended.2.2 none [.batch [⟨0, 5000⟩], .eos] (by decide)⟩

lemma arrivals_cons (e : QEv) (es : List QEv) :
    arrivals (e :: es) = arrivals [e] ++ arrivals es := by
  cases e <;> simp [arrivals]

lemma qstep_inv {s s1 : QState} {e : QEv} (hinv : QInv s)
    (h : qstep s e = some s1) :
    QInv s1 ∧ s1.doneL ++ s1.running.toList ++ s1.tasks =
      s.doneL ++ s.running.toList ++ s.tasks ++ arrivals [e] := by
  obtain ⟨hlk, hemp, htr⟩ := hinv
  cases e with
  | arrive r =>
      simp only [qstep] at h
      by_cases hl : s.locked
      · rw [if_pos hl] at h
        simp only [Option.some.injEq] at h
        subst h
        refine ⟨⟨hlk, ?_, htr⟩, ?_⟩
        · intro hn
          rw [hn] at hlk
          simp [hl] at hlk
        · simp [arrivals]
      · rw [if_neg hl] at h
        simp only [Option.some.injEq] at h
        subst h
        have hrn : s.running = none := by
          rcases hr : s.running with _ | r0
          · rfl
          · rw [hr] at hlk
            simp at hlk
            exact absurd hlk hl
        have htk : s.tasks = [] := hemp hrn
        refine ⟨⟨by simp, by simp, ?_⟩, ?_⟩
        · rw [htr, hrn]
          simp [tailEv]
        · rw [hrn, htk]
          simp [arrivals]
  | complete =>
      simp only [qstep] at h
      cases hrn : s.running with
      | none => rw [hrn] at h; cases h
      | some r =>
          rw [hrn] at h
          cases htk : s.tasks with
          | nil =>
              rw [htk] at h
              simp only [Option.some.injEq] at h
              subst h
              refine ⟨⟨by simp, by simp, ?_⟩, ?_⟩
              · rw [htr, hrn]
                simp [tailEv, pairEv, List.flatMap_append, List.append_assoc]
              · simp [arrivals]
          | cons t ts =>
              rw [htk] at h
              simp only [Option.some.injEq] at h
              subst h
              refine ⟨⟨?_, by simp, ?_⟩, ?_⟩
              · rw [hlk, hrn]
                simp
              · rw [htr, hrn]
                simp [tailEv, pairEv, List.flatMap_append, List.append_assoc]
              · simp [arrivals]

lemma qrun_inv :
    ∀ (es : List QEv) (s s1 : QState), QInv s → qrun s es = some s1 →
      QInv s1 ∧ s1.doneL ++ s1.running.toList ++ s1.tasks =
        s.doneL ++ s.running.toList ++ s.tasks ++ arrivals es := by
  intro es
  induction es with
  | nil =>
      intro s s1 hinv h
      simp only [qrun, Option.some.injEq] at h
      subst h
      exact ⟨hinv, by simp [arrivals]⟩
  | cons e es ih =>
      intro s s1 hinv h
      simp only [qrun] at h
      cases hst : qstep s e with
      | none => rw [hst] at h; cases h
      | some s2 =>
          rw [hst] at h
          obtain ⟨hinv2, hpart2⟩ := qstep_inv hinv hst
          obtain ⟨hinv1, hpart1⟩ := ih s2 s1 hinv2 h
          refine ⟨hinv1, ?_⟩
          rw [hpart1, hpart2, arrivals_cons e es]
          simp [List.append_assoc]

lemma mem_flatMap_pairEv_begin {D : List Nat} {r : Nat}
    (h : BEv.callBegin r ∈ D.flatMap pairEv) : r ∈ D := by
  rw [List.mem_flatMap] at h
  obtain ⟨a, ha, hmem⟩ := h
  simp only [pairEv, List.mem_cons, List.mem_singleton] at hmem
  rcases hmem with h1 | h2
  · injection h1 with hra
    subst hra
    exact ha
  · exact absurd h2 (by simp)

lemma before_in_prefix {D S : List Nat} {r1 r2 : Nat}
    (hnd : (D ++ S).Nodup) (p q : List Nat) (hpq : D ++ S = p ++ r1 :: q)
    (hq : r2 ∈ q) (hD : r2 ∈ D) :
    ∃ d1 d2, D = d1 ++ r1 :: d2 ∧ r2 ∈ d2 := by
  have hdisj := List.disjoint_of_nodup_append hnd
  rcases List.append_eq_append_iff.mp hpq with ⟨a, _, ha2⟩ | ⟨c, hc1, hc2⟩
  · exfalso
    have h1 : r2 ∈ r1 :: q := List.mem_cons_of_mem _ hq
    have h2 : r2 ∈ S := by
      rw [ha2]
      exact List.mem_append_of_mem_right _ h1
    exact hdisj hD h2
  · cases c with
    | nil =>
        exfalso
        simp only [List.nil_append] at hc2
        have h2 : r2 ∈ S := by
          rw [← hc2]
          exact List.mem_cons_of_mem _ hq
        exact hdisj hD h2
    | cons x c' =>
        simp only [List.cons_append, List.cons.injEq] at hc2
        obtain ⟨rfl, hq2⟩ := hc2
        refine ⟨p, c', by rw [hc1], ?_⟩
        rw [hq2] at hq
        rcases List.mem_append.mp hq with h | h
        · exact h
        · exact absurd h (fun hS => hdisj hD hS)

lemma mem_of_before_last {D T : List Nat} {r1 r2 : Nat}
    (hnd : (D ++ r2 :: T).Nodup) (p q : List Nat)
    (hpq : D ++ r2 :: T = p ++ r1 :: q) (hq : r2 ∈ q) : r1 ∈ D := by
  have hnd2 : ((D ++ [r2]) ++ T).Nodup := by
    simpa [List.append_assoc] using hnd
  have hr2D : r2 ∉ D := by
    intro hmem
    have hdisj := List.disjoint_of_nodup_append hnd
    exact hdisj hmem (List.mem_cons_self _ _)
  obtain ⟨d1, d2, hD, hd2⟩ := before_in_prefix hnd2 p q
    (by simpa [List.append_assoc] using hpq) hq
    (List.mem_append_of_mem_right _ (List.mem_singleton.mpr rfl))
  obtain ⟨x, y, hd2'⟩ := List.append_of_mem hd2
  rw [hd2'] at hD
  have hE : D ++ [r2] = (d1 ++ r1 :: x) ++ (r2 :: y) := by
    rw [hD]
    simp
  rcases List.append_eq_append_iff.mp hE with ⟨a, ha1, ha2⟩ | ⟨c, hc1, hc2⟩
  · cases a with
    | nil =>
        rw [List.append_nil] at ha1
        rw [← ha1]
        exact List.mem_append_of_mem_right _ (List.mem_cons_self _ _)
    | cons z zs =>
        exfalso
        simp only [List.cons_append, List.cons.injEq] at ha2
        obtain ⟨_, habs⟩ := ha2
        simp at habs
  · cases c with
    | nil =>
        rw [List.append_nil] at hc1
        rw [hc1]
        exact List.mem_append_of_mem_right _ (List.mem_cons_self _ _)
    | cons z c' =>
        exfalso
        simp only [List.cons_append, List.cons.injEq] at hc2
        obtain ⟨rfl, _⟩ := hc2
        have h2 : r2 ∈ D := by
          rw [hc1]
          exact List.mem_append_of_mem_right _ (List.mem_cons_self _ _)
        exact hr2D h2

/-- C1.  Per-handle serialization.  After each response of a handle-bound
request is sent, `processNext` pops exactly one queued task and runs it,
or clears the lock when the queue is empty (first two conjuncts, which are
the two completion transitions).  Consequently, along any legal event
sequence of one handle, whenever request `r1` arrives before `r2` (both
bound to that handle) and the backend call of `r2` has begun, the backend
call of `r1` has already completed: the trace decomposes with
`callEnd r1` strictly before `callBegin r2`. -/
theorem handleQueue_serializes :
    (∀ (s : QState) (r t : Nat) (ts : List Nat),
      s.running = some r → s.tasks = t :: ts →
      qstep s .complete = some ⟨s.locked, some t, ts, s.doneL ++ [r],
        s.trace ++ [.callEnd r, .callBegin t]⟩) ∧
    (∀ (s : QState) (r : Nat),
      s.running = some r → s.tasks = [] →
      qstep s .complete = some ⟨false, none, s.tasks, s.doneL ++ [r],
        s.trace ++ [.callEnd r]⟩) ∧
    (∀ (es : List QEv) (s' : QState) (p q : List Nat) (r1 r2 : Nat),
      qrun initQState es = some s' →
      (arrivals es).Nodup →
      arrivals es = p ++ r1 :: q →
      r2 ∈ q →
      BEv.callBegin r2 ∈ s'.trace →
      ∃ l1 l2, s'.trace = l1 ++ BEv.callBegin r2 :: l2 ∧
        BEv.callEnd r1 ∈ l1) := by
  refine ⟨?_, ?_, ?_⟩
  · intro s r t ts hr ht
    simp [qstep, hr, ht]
  · intro s r hr ht
    simp [qstep, hr, ht]
  · intro es s' p q r1 r2 hrun hnd hsplit hq hb
    obtain ⟨⟨_, _, htr⟩, hpart⟩ :=
      qrun_inv es initQState s' ⟨rfl, fun _ => rfl, rfl⟩ hrun
    have hpart' : s'.doneL ++ s'.running.toList ++ s'.tasks = arrivals es := by
      rw [hpart]
      simp [initQState]
    rw [htr] at hb
    rw [← hpart'] at hsplit hnd
    rcases List.mem_append.mp hb with hbD | hbT
    · -- the begin of r2 lies in a completed block: r2 is done
      have hr2D : r2 ∈ s'.doneL := mem_flatMap_pairEv_begin hbD
      obtain ⟨d1, d2, hD, hd2⟩ := before_in_prefix
        (by simpa [List.append_assoc] using hnd) p q
        (by simpa [List.append_assoc] using hsplit) hq hr2D
      obtain ⟨x, y, hd2'⟩ := List.append_of_mem hd2
      refine ⟨d1.flatMap pairEv ++ [.callBegin r1, .callEnd r1] ++
        x.flatMap pairEv, .callEnd r2 :: y.flatMap pairEv ++
        tailEv s'.running, ?_, ?_⟩
      · rw [htr, hD, hd2']
        simp [pairEv, List.flatMap_append, List.flatMap_cons,
          List.append_assoc]
      · simp
    · -- the begin of r2 is the trailing event: r2 is in flight
      have hr2R : s'.running = some r2 := by
        rcases hr : s'.running with _ | r0
        · rw [hr] at hbT
          simp [tailEv] at hbT
        · rw [hr] at hbT
          simp only [tailEv, List.mem_singleton, BEv.callBegin.injEq] at hbT
          rw [hbT]
      have hr1D : r1 ∈ s'.doneL := by
        refine mem_of_before_last (T := s'.tasks)
          (by rw [hr2R] at hnd; simpa [List.append_assoc] using hnd) p q ?_ hq
        rw [hr2R] at hsplit
        simpa [List.append_assoc] using hsplit
      obtain ⟨u, v, hD⟩ := List.append_of_mem hr1D
      refine ⟨s'.doneL.flatMap pairEv, [], ?_, ?_⟩
      · rw [htr, hr2R]
        simp [tailEv]
      · rw [hD]
        simp [pairEv, List.flatMap_append, List.flatMap_cons]

/-- Witness for the serialization theorem: two requests arrive on the same
handle, the second while the first is running; after both complete, the
trace is begin 1, end 1, begin 2, end 2, and end 1 precedes begin 2. -/
theorem handleQueue_serializes_witness :
    ∃ l1 l2,
      ([.callBegin 1, .callEnd 1, .callBegin 2, .callEnd 2] : List BEv) =
        l1 ++ BEv.callBegin 2 :: l2 ∧ BEv.callEnd 1 ∈ l1 :=
  handleQueue_serializes.2.2 [.arrive 1, .arrive 2, .complete, .complete]
    ⟨false, none, [], [1, 2],
      [.callBegin 1, .callEnd 1, .callBegin 2, .callEnd 2]⟩
    [] [2] 1 2 rfl (by decide) rfl (by decide) (by decide)
